import Mathlib

/-!
# Verification of the wgkex control plane against its specification

Shallow embedding of the wgkex broker/worker code (Python) in Lean 4.
Each definition mirrors one function or class of the source tree; the
file/line of the source is named in the doc comment.  Machine integers are
modelled as `Int`/`Nat` (Python integers are unbounded, so no wrap-around
is needed); fallible code returns `Except`/`Option`; Python dictionaries
are modelled as association lists in insertion order.
-/

namespace Wgkex

/-! ## Configuration model (src/wgkex/config/config.py) -/

/-- Embeds the `Worker` dataclass (config.py:25-39): one entry of the
`workers` key of the configuration, holding only a `weight`. -/
structure Worker where
  weight : Int
  deriving Repr, DecidableEq

/-- Embeds `Worker.from_dict` (config.py:35-39):
`weight=int(worker_cfg["weight"]) if worker_cfg["weight"] else 1`.
The argument is the integer value of `worker_cfg["weight"]`; Python
truthiness of an `int` is `≠ 0`, so a configured weight of `0` falls back
to `1`. -/
def Worker.from_dict (w : Int) : Worker :=
  { weight := if w ≠ 0 then w else 1 }

/-- Embeds the `Workers` dataclass (config.py:42-71): the parsed `workers`
configuration, with the pre-computed `total_weight` and the dict
`_workers` (modelled as an association list in insertion order). -/
structure Workers where
  total_weight : Int
  _workers : List (String × Worker)
  deriving Repr, DecidableEq

/-- Embeds `Workers.from_dict` (config.py:53-62): parses every worker via
`Worker.from_dict`, sums the parsed weights and clamps the total with
`total = max(total, 1)`.  The argument models the YAML `workers` dict as
its item list (dict keys are unique). -/
def Workers.from_dict (workers_cfg : List (String × Int)) : Workers :=
  let d := workers_cfg.map (fun p => (p.1, Worker.from_dict p.2))
  let total := d.foldl (fun acc p => acc + p.2.weight) 0
  { total_weight := max total 1, _workers := d }

/-- Embeds `Workers.get` (config.py:64-65): `self._workers.get(worker)`. -/
def Workers.get (ws : Workers) (worker : String) : Option Worker :=
  (ws._workers.find? (fun p => p.1 = worker)).map (·.2)

/-- Embeds `Workers.relative_worker_weight` (config.py:67-71).  Python
float division is modelled exactly in `ℚ`. -/
def Workers.relative_worker_weight (ws : Workers) (worker_name : String) : ℚ :=
  match ws.get worker_name with
  | none => 1 / (ws.total_weight : ℚ)
  | some worker => (worker.weight : ℚ) / (ws.total_weight : ℚ)

/-- Embeds the `Config` fields used by the claims (config.py:283-344):
`domains`, `domain_prefixes` and the workers table.

The field `key_whitelist` is Modelled from the spec: its parsing is code
of this repository missing from src/ — `src/wgkex/config/config.py`
defines no such field, while `src/wgkex/config/config_test.py:74-119`
tests it (a list of keys when present, `None` when absent from the YAML)
and `src/wgkex/worker/netlink.py:199` reads it.  The spec's stale-peer
flusher (§4.7) mentions no whitelist, so the spec-faithful value is
`none` (absent). -/
structure Config where
  domains : List String
  domain_prefixes : List String
  workers : Workers
  key_whitelist : Option (List String) := none
  deriving Repr, DecidableEq

/-! ## Worker fleet registry (src/wgkex/broker/metrics.py) -/

/-- Embeds `MQTTTopics.CONNECTED_PEERS_METRIC` (src/wgkex/common/mqtt.py:7). -/
def CONNECTED_PEERS_METRIC : String := "connected_peers"

/-- Embeds the `WorkerMetrics` dataclass (metrics.py:9-48): per-worker
state `domain_data : Dict[str, Dict[str, Any]]` (metric values are the
integers published on the bus) and the `online` flag. -/
structure WorkerMetrics where
  worker : String
  domain_data : List (String × List (String × Int)) := []
  online : Bool := false
  deriving Repr, DecidableEq

/-- Python `dict.get(k, default)` over an association list. -/
def dictGetD (d : List (String × α)) (k : String) (default : α) : α :=
  match d.find? (fun p => p.1 = k) with
  | some p => p.2
  | none => default

/-- Python `dict.get(k)` over an association list. -/
def dictGet? (d : List (String × α)) (k : String) : Option α :=
  (d.find? (fun p => p.1 = k)).map (·.2)

/-- Python `d[k] = v` over an association list: overwrite in place if the
key is present, else append. -/
def dictSet (d : List (String × α)) (k : String) (v : α) : List (String × α) :=
  if d.any (fun p => p.1 = k) then
    d.map (fun p => if p.1 = k then (k, v) else p)
  else d ++ [(k, v)]

/-- Embeds `WorkerMetrics.get_domain_metrics` (metrics.py:30-31):
`self.domain_data.get(domain, {})`. -/
def WorkerMetrics.get_domain_metrics (wm : WorkerMetrics) (domain : String) :
    List (String × Int) :=
  dictGetD wm.domain_data domain []

/-- Embeds `WorkerMetrics.is_online` (metrics.py:18-28): for a truthy
(non-empty) domain, `online and get_domain_metrics(domain).get("connected_peers", -1) >= 0`;
for an empty domain just `online`. -/
def WorkerMetrics.is_online (wm : WorkerMetrics) (domain : String := "") : Bool :=
  if domain ≠ "" then
    wm.online && decide (dictGetD (wm.get_domain_metrics domain) CONNECTED_PEERS_METRIC (-1) ≥ 0)
  else
    wm.online

/-- Embeds `WorkerMetrics.set_metric` (metrics.py:33-37). -/
def WorkerMetrics.set_metric (wm : WorkerMetrics) (domain metric : String) (value : Int) :
    WorkerMetrics :=
  if wm.domain_data.any (fun p => p.1 = domain) then
    { wm with domain_data :=
        wm.domain_data.map (fun p => if p.1 = domain then (domain, dictSet p.2 metric value) else p) }
  else
    { wm with domain_data := wm.domain_data ++ [(domain, [(metric, value)])] }

/-- Embeds `WorkerMetrics.get_peer_count` (metrics.py:39-48):
`Σ max(data.get("connected_peers", 0), 0)` over all domains. -/
def WorkerMetrics.get_peer_count (wm : WorkerMetrics) : Int :=
  wm.domain_data.foldl
    (fun total p => total + max (dictGetD p.2 CONNECTED_PEERS_METRIC 0) 0) 0

/-- Embeds the `WorkerResult` dataclass (metrics.py:51-57). -/
structure WorkerResult where
  name : String
  id : Int
  diff : Int
  peers : Int
  target : Int
  deriving Repr, DecidableEq, Inhabited

/-- Embeds the `WorkerMetricsCollection` dataclass (metrics.py:60-67):
`data : Dict[str, WorkerMetrics]`. -/
structure WorkerMetricsCollection where
  data : List (String × WorkerMetrics) := []
  deriving Repr, DecidableEq

/-- Embeds `WorkerMetricsCollection.get` (metrics.py:69-70):
`self.data.get(worker, WorkerMetrics(worker=worker))`. -/
def WorkerMetricsCollection.get (c : WorkerMetricsCollection) (worker : String) :
    WorkerMetrics :=
  dictGetD c.data worker { worker := worker }

/-- Embeds `WorkerMetricsCollection.update` (metrics.py:75-81). -/
def WorkerMetricsCollection.update (c : WorkerMetricsCollection)
    (worker domain metric : String) (value : Int) : WorkerMetricsCollection :=
  if c.data.any (fun p => p.1 = worker) then
    { data := c.data.map (fun p =>
        if p.1 = worker then (worker, p.2.set_metric domain metric value) else p) }
  else
    { data := c.data ++ [(worker, WorkerMetrics.set_metric { worker := worker } domain metric value)] }

/-- Embeds `WorkerMetricsCollection.set_online` (metrics.py:83-89). -/
def WorkerMetricsCollection.set_online (c : WorkerMetricsCollection) (worker : String) :
    WorkerMetricsCollection :=
  if c.data.any (fun p => p.1 = worker) then
    { data := c.data.map (fun p => if p.1 = worker then (worker, { p.2 with online := true }) else p) }
  else
    { data := c.data ++ [(worker, { worker := worker, online := true })] }

/-- Embeds `WorkerMetricsCollection.set_offline` (metrics.py:91-93). -/
def WorkerMetricsCollection.set_offline (c : WorkerMetricsCollection) (worker : String) :
    WorkerMetricsCollection :=
  if c.data.any (fun p => p.1 = worker) then
    { data := c.data.map (fun p => if p.1 = worker then (worker, { p.2 with online := false }) else p) }
  else c

/-- Embeds `WorkerMetricsCollection.get_total_peer_count` (metrics.py:95-110). -/
def WorkerMetricsCollection.get_total_peer_count (c : WorkerMetricsCollection) : Int :=
  c.data.foldl
    (fun total p =>
      p.2.domain_data.foldl
        (fun t q => t + max (dictGetD q.2 CONNECTED_PEERS_METRIC 0) 0) total)
    0

/-- Python runtime errors raised by the embedded code. -/
inductive PyErr where
  /-- An `AttributeError`: object of the named class has no attribute of the
  named name. -/
  | attributeError (class_ attr : String)
  /-- Any exception raised by a modelled external call (netlink, …). -/
  | exception (msg : String)
  deriving Repr, DecidableEq

/-- Python attribute lookup `workers_cfg.all_pops` performed by
`get_best_workers` (metrics.py:148 and 151) on a `config.Workers` value.
The `Workers` dataclass (config.py:42-71) defines only `total_weight`,
`_workers`, `get` and `relative_worker_weight` — there is no attribute
`all_pops` anywhere in src/ — so the lookup raises `AttributeError`. -/
def Workers.getattr_all_pops (_ : Workers) : Except PyErr (List String) :=
  .error (.attributeError "Workers" "all_pops")

/-- Embeds `WorkerMetricsCollection.get_best_workers` (metrics.py:123-213).
Its first executed statement, `print(workers_cfg.all_pops)` (line 148),
looks up the attribute `all_pops` on the parsed workers configuration;
the lookup raises `AttributeError` unconditionally (see
`Workers.getattr_all_pops`), before any candidate is examined, so the
call never reaches the selection loop (which would in addition need
`Worker.pop`, `Worker.id` and `Workers.sticky_worker_tolerance`, equally
absent from config.py). -/
def WorkerMetricsCollection.get_best_workers (_c : WorkerMetricsCollection)
    (workers_cfg : Workers) (_domain : String)
    (_current_selected_workers : List String) : Except PyErr (List WorkerResult) := do
  let _all_pops ← workers_cfg.getattr_all_pops
  return []

/-- Embeds `WorkerMetricsCollection.get_best_worker` (metrics.py:112-121):
`get_best_workers(domain, [])`, then `None` if the list is empty, else
the first element of the list sorted ascending by `diff`.  The
`workers_cfg` argument is the `config.get_config().workers` read inside
`get_best_workers` (metrics.py:146). -/
def WorkerMetricsCollection.get_best_worker (c : WorkerMetricsCollection)
    (workers_cfg : Workers) (domain : String) :
    Except PyErr (Option String × Int × Int) := do
  let workers ← c.get_best_workers workers_cfg domain []
  if workers.length = 0 then
    return (none, 0, 0)
  else
    let sorted := workers.mergeSort (fun a b => a.diff ≤ b.diff)
    let worker := sorted.headI
    return (some worker.name, worker.diff, worker.peers)

/-! ## Key validator (src/wgkex/common/utils.py) and broker v1 endpoint
(src/wgkex/broker/app.py) -/

/-- One character of the base64 body class `[A-Za-z0-9+/]` of
`WG_PUBKEY_PATTERN` (utils.py:8). -/
def isBase64Char (c : Char) : Bool :=
  ('A' ≤ c && c ≤ 'Z') || ('a' ≤ c && c ≤ 'z') || ('0' ≤ c && c ≤ '9') || c = '+' || c = '/'

/-- One character of the final class `[AEIMQUYcgkosw480]` of
`WG_PUBKEY_PATTERN` (utils.py:8). -/
def isFinalGroupChar (c : Char) : Bool :=
  "AEIMQUYcgkosw480".data.contains c

/-- A character list matching `^[A-Za-z0-9+/]{42}[AEIMQUYcgkosw480]=$`
exactly up to the end anchor: 42 body characters, one final-class
character, `=`. -/
def wgPubkeyCore (cs : List Char) : Bool :=
  cs.length = 44 && (cs.take 42).all isBase64Char
    && isFinalGroupChar (cs.getD 42 ' ') && cs.getD 43 ' ' == '='

/-- Embeds `WG_PUBKEY_PATTERN.match(s) is not None` (utils.py:8, 75).
Python's `$` also matches just before a single trailing newline, so the
pattern accepts both a bare 44-character key and one followed by `"\n"`. -/
def WG_PUBKEY_PATTERN_match (s : String) : Bool :=
  wgPubkeyCore s.data ||
    (match s.data.getLast? with
     | some c => c == '\n' && wgPubkeyCore s.data.dropLast
     | none => false)

/-- Embeds `is_valid_wg_pubkey` (utils.py:62-77): raises `ValueError` when
the regex does not match, else returns the key unchanged.  The argument
is `msg.get("public_key")`: when the body has no `public_key`, Python
passes `None` to `re.match`, which raises `TypeError` — modelled by the
`none` branch. -/
def is_valid_wg_pubkey : Option String → Except PyErr String
  | none => .error (.exception "TypeError: expected string or bytes-like object")
  | some pubkey =>
    if WG_PUBKEY_PATTERN_match pubkey then .ok pubkey
    else .error (.exception ("Not a valid Wireguard public key: " ++ pubkey ++ "."))

/-- Embeds `is_valid_domain` (utils.py:45-59): the domain must be in
`config.domains` and start with one of `config.domain_prefixes`
(`str.startswith`, modelled on the character lists). -/
def is_valid_domain (cfg : Config) (domain : String) : Bool :=
  if ¬ cfg.domains.contains domain then false
  else cfg.domain_prefixes.any (fun pfx => pfx.data.isPrefixOf domain.data)

/-- Python `str(msg.get("domain"))` (app.py:50): `str(None) = "None"`. -/
def pyStrOfOption : Option String → String
  | none => "None"
  | some s => s

/-- The JSON body of a v1/v2 key-exchange request, as decoded by
`request.get_json` (app.py:124): the two relevant entries, each possibly
absent. -/
structure KeyExchangeMsg where
  public_key : Option String
  domain : Option String
  deriving Repr, DecidableEq

/-- Embeds the `KeyExchange` dataclass (app.py:28-38). -/
structure KeyExchange where
  public_key : String
  domain : String
  deriving Repr, DecidableEq

/-- Embeds `KeyExchange.from_dict` (app.py:40-53): validate the public key
(raising on mismatch), stringify the domain, raise `ValueError` when the
domain is not configured. -/
def KeyExchange.from_dict (cfg : Config) (msg : KeyExchangeMsg) : Except PyErr KeyExchange :=
  match is_valid_wg_pubkey msg.public_key with
  | .error e => .error e
  | .ok public_key =>
    let domain := pyStrOfOption msg.domain
    if ¬ is_valid_domain cfg domain then
      .error (.exception ("Domain " ++ domain ++ " not in configured domains."))
    else
      .ok { public_key := public_key, domain := domain }

/-- The JSON body returned by the v1 handler: either
`\x7b"error":\x7b"message": msg\x7d\x7d` or `\x7b"Message":"OK"\x7d`. -/
inductive ResponseBody where
  | error (message : String)
  | messageOK
  deriving Repr, DecidableEq

/-- The generic error message of the broker's 400 responses
(app.py:129-133). -/
def genericErrorMessage : String :=
  "An internal error has occurred. Please try again later."

/-- Result of one v1 request: response body, HTTP status, and the list of
`(topic, payload)` MQTT publishes performed by the handler. -/
structure V1Result where
  body : ResponseBody
  status : Nat
  published : List (String × String)
  deriving Repr, DecidableEq

/-- Embeds `wg_api_v1_key_exchange` (app.py:117-142): parse/validate the
body — any exception yields a 400 with the generic error body and no
publish — else publish the public key on `wireguard/<domain>/all` and
return `\x7b"Message":"OK"\x7d, 200`. -/
def wg_api_v1_key_exchange (cfg : Config) (msg : KeyExchangeMsg) : V1Result :=
  match KeyExchange.from_dict cfg msg with
  | .error _ => { body := .error genericErrorMessage, status := 400, published := [] }
  | .ok data =>
    { body := .messageOK, status := 200,
      published := [("wireguard/" ++ data.domain ++ "/all", data.public_key)] }

/-! ## Worker-side work queue (src/wgkex/worker/msg_queue.py) -/

/-- State of a `UniqueQueue` (msg_queue.py:16-28).  `_init` replaces the
backing store with `self.queue = set()`; the set holds the pending
`(domain, pubkey)` items and records no order.  The state is represented
by the list of its distinct elements in insertion order; the
representation order is never consulted by `getRel` below, which models
`set.pop()`'s \"remove and return an arbitrary element\". -/
structure UniqueQueue where
  queue : List (String × String) := []
  deriving Repr, DecidableEq

/-- Embeds `UniqueQueue.put` (msg_queue.py:17-19) together with `_put`
(msg_queue.py:24-25): `if item not in self.queue: ... self.queue.add(item)`. -/
def UniqueQueue.put (q : UniqueQueue) (item : String × String) : UniqueQueue :=
  if item ∈ q.queue then q else { queue := q.queue ++ [item] }

/-- Embeds `UniqueQueue._get` (msg_queue.py:27-28): `self.queue.pop()`
removes and returns an arbitrary element of the set, so the step is a
relation: any pending item may be returned, leaving the rest. -/
def UniqueQueue.getRel (q : UniqueQueue) (item : String × String) (q' : UniqueQueue) : Prop :=
  item ∈ q.queue ∧ q'.queue = q.queue.erase item

/-- The FIFO half of the claim, stated as a property of the code: after
enqueueing two distinct items `a` then `b` into an empty queue, any get
returns the first-enqueued item `a`. -/
def UniqueQueueFifoClaim : Prop :=
  ∀ (a b x : String × String) (q' : UniqueQueue), a ≠ b →
    UniqueQueue.getRel (UniqueQueue.put (UniqueQueue.put {} a) b) x q' → x = a

/-! ## Netlink engine (src/wgkex/worker/netlink.py) -/

/-- Embeds `_PEER_TIMEOUT_HOURS` (netlink.py:19). -/
def _PEER_TIMEOUT_HOURS : Int := 3

/-- Embeds the `WireGuardClient` dataclass (netlink.py:22-34). -/
structure WireGuardClient where
  public_key : String
  domain : String
  remove : Bool
  deriving Repr, DecidableEq

/-- The value of a peer's `WGPEER_A_LAST_HANDSHAKE_TIME` attribute, a dict
read with `.get("tv_sec", int())` (netlink.py:216) — the `tv_sec` entry
may itself be absent, defaulting to `0`. -/
structure HandshakeTime where
  tv_sec : Option Int
  deriving Repr, DecidableEq

/-- One peer of the kernel dump: its `WGPEER_A_PUBLIC_KEY` (already
decoded to a string) and its optional `WGPEER_A_LAST_HANDSHAKE_TIME`
attribute, `none` for a peer that has never completed a handshake. -/
structure WGPeer where
  public_key : String
  last_handshake_time : Option HandshakeTime
  deriving Repr, DecidableEq

/-- One netlink message of `wg.info(wg_interface)` (netlink.py:205): its
optional `WGDEVICE_A_PEERS` attribute. -/
structure WGMsg where
  peers : Option (List WGPeer)
  deriving Repr, DecidableEq

/-- The `all_peers` accumulation of `find_stale_wireguard_clients`
(netlink.py:204-211): `if peers: all_peers.extend(peers)` over all
messages (extending by an empty list is extending by nothing). -/
def allPeers (msgs : List WGMsg) : List WGPeer :=
  msgs.foldl (fun acc m => match m.peers with
    | some ps => acc ++ ps
    | none => acc) []

/-- Embeds `find_stale_wireguard_clients` (netlink.py:182-219).  `now` is
`datetime.now().timestamp()` in whole seconds and `msgs` the kernel dump
for the interface.  A peer is kept iff its handshake attribute is present
(the walrus test `is not None`), its `tv_sec` (default 0) is strictly
below `now - 3h`, and its key is not in the configured `key_whitelist`
(`None`, hence `[]`, when unset — see `Config.key_whitelist`). -/
def find_stale_wireguard_clients (cfg : Config) (now : Int) (msgs : List WGMsg) :
    List String :=
  let three_hrs_in_secs := now - _PEER_TIMEOUT_HOURS * 3600
  let whitelist := cfg.key_whitelist.getD []
  ((allPeers msgs).filter (fun peer =>
      match peer.last_handshake_time with
      | none => false
      | some hshk_time =>
        decide (hshk_time.tv_sec.getD 0 < three_hrs_in_secs)
          && !(whitelist.contains peer.public_key))
    ).map (·.public_key)

/-- The removal clients built by `wg_flush_stale_peers` (netlink.py:74-81):
one `WireGuardClient` with `remove=True` per stale public key; these are
exactly the clients passed to `link_handler` (netlink.py:84-86). -/
def wg_flush_stale_peers_clients (cfg : Config) (now : Int) (msgs : List WGMsg)
    (domain : String) : List WireGuardClient :=
  (find_stale_wireguard_clients cfg now msgs).map
    (fun stale_client => { public_key := stale_client, domain := domain, remove := true })

/-- The kernel-facing operations `link_handler` performs, as an
environment: each may raise (netlink errors, missing interface, …); a
successful call returns an opaque result token. -/
structure NetlinkEnv where
  update_wireguard_peer : WireGuardClient → Except PyErr String
  route_handler : WireGuardClient → Except PyErr String
  bridge_fdb_handler : WireGuardClient → Except PyErr String

/-- A value of the result dict built by `link_handler`: either the result
of the sub-operation, or the exception object stored by the
`except`-branch (netlink.py:108-111). -/
inductive OpOutcome where
  | ok (result : String)
  | captured (e : PyErr)
  deriving Repr, DecidableEq

/-- Embeds `link_handler` (netlink.py:92-115).  The WireGuard peer update
(line 102) runs first and is NOT wrapped in `try`; the route update
(lines 104-111) is wrapped, its exception being stored in the result map;
the bridge-FDB update (line 113) is NOT wrapped.  The second component is
the trace of sub-operations attempted, in order. -/
def link_handler (env : NetlinkEnv) (client : WireGuardClient) :
    Except PyErr (List (String × OpOutcome)) × List String :=
  match env.update_wireguard_peer client with
  | .error e => (.error e, ["Wireguard"])
  | .ok wg_result =>
    let route_entry : OpOutcome :=
      match env.route_handler client with
      | .ok r => .ok r
      | .error e => .captured e
    match env.bridge_fdb_handler client with
    | .error e => (.error e, ["Wireguard", "Route", "Bridge FDB"])
    | .ok fdb_result =>
      (.ok [("Wireguard", .ok wg_result), ("Route", route_entry),
            ("Bridge FDB", .ok fdb_result)],
       ["Wireguard", "Route", "Bridge FDB"])

/-- Embeds `wg_flush_stale_peers` (netlink.py:64-88): apply `link_handler`
to every removal client. -/
def wg_flush_stale_peers (env : NetlinkEnv) (cfg : Config) (now : Int)
    (msgs : List WGMsg) (domain : String) :
    List (Except PyErr (List (String × OpOutcome)) × List String) :=
  (wg_flush_stale_peers_clients cfg now msgs domain).map (link_handler env)

/-- The peers the spec's stale-peer flusher removes, stated from the
spec's words (§4.7: \"any peer whose most recent handshake is older than
3 hours is removed\"): the keys of the dumped peers having a handshake
older than three hours. -/
def specStalePeers (now : Int) (msgs : List WGMsg) : List String :=
  ((allPeers msgs).filter (fun peer =>
      match peer.last_handshake_time with
      | none => false
      | some hshk_time => decide (hshk_time.tv_sec.getD 0 < now - 3 * 3600))
    ).map (·.public_key)

/-! ## File-backed IPAM (src/wgkex/broker/ipam_json.py)

IPv6 networks (`ipaddress.IPv6Network`) are modelled by their network
address as a 128-bit integer plus the prefix length; `ipaddress` parses
with `strict=True`, so every network read back from the JSON file has its
host bits zero (`Normalized` below).  The JSON file contents are
modelled at the parsed level: a missing file, an undecodable file, or a
decoded object with an optional `parent_prefix` key and the `ranges`
dict. -/

/-- An `ipaddress.IPv6Network`: network address and prefix length. -/
structure IPv6Net where
  addr : Nat
  plen : Nat
  deriving Repr, DecidableEq

/-- A network as produced by a strict `IPv6Network(...)` parse: prefix
length in range, address in range with host bits zero. -/
def IPv6Net.Normalized (n : IPv6Net) : Prop :=
  n.plen ≤ 128 ∧ n.addr < 2 ^ 128 ∧ n.addr % 2 ^ (128 - n.plen) = 0

instance (n : IPv6Net) : Decidable n.Normalized := by
  unfold IPv6Net.Normalized; infer_instance

/-- Embeds `a.subnet_of(b)` for IPv6 networks: `b` is no longer than `a`
and they share `b`'s network prefix (for normalized networks this is
exactly `ipaddress`'s interval containment). -/
def IPv6Net.subnet_of (a b : IPv6Net) : Bool :=
  b.plen ≤ a.plen && a.addr / 2 ^ (128 - b.plen) == b.addr / 2 ^ (128 - b.plen)

/-- Embeds `n.subnets(new_prefix=L)` (for `n.plen ≤ L ≤ 128`): the
subnets of length `L` in ascending order. -/
def IPv6Net.subnets (n : IPv6Net) (L : Nat) : List IPv6Net :=
  (List.range (2 ^ (L - n.plen))).map (fun i => ⟨n.addr + i * 2 ^ (128 - L), L⟩)

/-- The hard-coded default parent prefix `2001:db8:ed0::/56`
(ipam_json.py:46-48). -/
def DEFAULT_PARENT : IPv6Net := ⟨0x20010db80ed0 * 2 ^ 80, 56⟩

/-- The parsed state of the IPAM JSON file (ipam_json.py:49-59): the file
may be absent (`FileNotFoundError`), undecodable (`JSONDecodeError`), or
a JSON object with an optional `parent_prefix` and a `ranges` dict
mapping public keys to networks. -/
inductive IPAMFile where
  | missing
  | corrupt
  | valid ( parent_prefix : Option IPv6Net) (ranges : List (String × IPv6Net))
  deriving Repr, DecidableEq

/-- The states producible by `ipaddress` parsing and `dict` semantics: a
parsed parent prefix is normalized and a JSON object's keys are
distinct. -/
def IPAMFile.WellFormed : IPAMFile → Prop
  | .valid parent_prefix ranges =>
    (∀ p ∈ parent_prefix, p.Normalized) ∧ (ranges.map (·.1)).Nodup
  | _ => True

/-- Embeds `JSONFileIPAM.get_or_allocate_prefix` (ipam_json.py:24-87) as
a state transformer on the file contents.  Faithful branch structure:
`ipv4=True` raises `NotImplementedError`; `ipv6=False` returns nothing;
a stored range that is a subnet of the parent is returned without
touching the file; otherwise the first free subnet of the parent (its
very first subnet skipped) not present among the stored subnet-of-parent
ranges is chosen — falling back to the invalid stored range when all are
taken (`range6` is then still the old value, ipam_json.py:62,71-74) —
the update is persisted and the chosen range returned; when nothing is
free and nothing was stored, `(None, None, [])` is returned.  The first
tuple component (`IPv4Network`, always `None` here) is dropped. -/
def get_or_allocate_prefix (st : IPAMFile) (pubkey : String)
    (ipv4 ipv6 : Bool) (_ipv4_prefix_length : Nat) (ipv6_prefix_length : Nat) :
    Except PyErr (Option IPv6Net × List String) × IPAMFile :=
  if ipv4 then
    (.error (.exception "NotImplementedError: Non-464XLAT mode not implemented in JSONFileIPAM"), st)
  else if ¬ ipv6 then
    (.ok (none, []), st)
  else
    let ranges : List (String × IPv6Net) :=
      match st with
      | .valid _ rgs => rgs
      | _ => []
    let parent_prefix : IPv6Net :=
      match st with
      | .valid (some p) _ => p
      | _ => DEFAULT_PARENT
    match dictGet? ranges pubkey with
    | some range6 =>
      if range6.subnet_of parent_prefix then
        (.ok (some range6, []), st)
      else
        allocate st ranges parent_prefix pubkey (some range6) ipv6_prefix_length
    | none =>
      allocate st ranges parent_prefix pubkey none ipv6_prefix_length
where
  /-- The reallocation path (ipam_json.py:62-85): filter the stored
  ranges to subnets of the parent, walk the parent's subnets (first one
  skipped) to the first free one, persist and return. -/
  allocate (st : IPAMFile) (ranges : List (String × IPv6Net))
      ( parent_prefix : IPv6Net) (pubkey : String) (old : Option IPv6Net)
      (ipv6_prefix_length : Nat) :
      Except PyErr (Option IPv6Net × List String) × IPAMFile :=
    if ipv6_prefix_length < parent_prefix.plen ∨ 128 < ipv6_prefix_length then
      (.error (.exception "ValueError: new prefix must be longer"), st)
    else
      let parsed_ranges := (ranges.map (·.2)).filter (fun rg => rg.subnet_of parent_prefix)
      let candidates := ( parent_prefix.subnets ipv6_prefix_length).drop 1
      match candidates.find? (fun candidate => ¬ parsed_ranges.contains candidate), old with
      | some range6, _ | none, some range6 =>
        (.ok (some range6, []),
         .valid (some parent_prefix) (dictSet ranges pubkey range6))
      | none, none =>
        (.ok (none, []), st)

/-! ## MD5 (Python `hashlib.md5`)

`WireGuardClient.lladdr` (netlink.py:43-45) hashes the public key with
MD5; the full MD5 algorithm (RFC 1321) is embedded so that the
link-local derivation is computable end to end.  Bytes are `Nat < 256`,
32-bit words are `Nat` reduced modulo `2^32`. -/

/-- Truncation to a 32-bit word. -/
def w32 (x : Nat) : Nat := x % 4294967296

/-- The 32-bit left rotation (input assumed `< 2^32`). -/
def rotl32 (x s : Nat) : Nat := (x <<< s) % 4294967296 ||| (x >>> (32 - s))

/-- The 32-bit complement. -/
def not32 (x : Nat) : Nat := x ^^^ 0xffffffff

/-- The 64 MD5 sine-derived constants `K[i] = ⌊2³² · |sin(i+1)|⌋`. -/
def md5K : List Nat :=
  [0xd76aa478, 0xe8c7b756, 0x242070db, 0xc1bdceee,
   0xf57c0faf, 0x4787c62a, 0xa8304613, 0xfd469501,
   0x698098d8, 0x8b44f7af, 0xffff5bb1, 0x895cd7be,
   0x6b901122, 0xfd987193, 0xa679438e, 0x49b40821,
   0xf61e2562, 0xc040b340, 0x265e5a51, 0xe9b6c7aa,
   0xd62f105d, 0x02441453, 0xd8a1e681, 0xe7d3fbc8,
   0x21e1cde6, 0xc33707d6, 0xf4d50d87, 0x455a14ed,
   0xa9e3e905, 0xfcefa3f8, 0x676f02d9, 0x8d2a4c8a,
   0xfffa3942, 0x8771f681, 0x6d9d6122, 0xfde5380c,
   0xa4beea44, 0x4bdecfa9, 0xf6bb4b60, 0xbebfbc70,
   0x289b7ec6, 0xeaa127fa, 0xd4ef3085, 0x04881d05,
   0xd9d4d039, 0xe6db99e5, 0x1fa27cf8, 0xc4ac5665,
   0xf4292244, 0x432aff97, 0xab9423a7, 0xfc93a039,
   0x655b59c3, 0x8f0ccc92, 0xffeff47d, 0x85845dd1,
   0x6fa87e4f, 0xfe2ce6e0, 0xa3014314, 0x4e0811a1,
   0xf7537e82, 0xbd3af235, 0x2ad7d2bb, 0xeb86d391]

/-- The 64 MD5 per-round left-rotation amounts. -/
def md5S : List Nat :=
  [7, 12, 17, 22, 7, 12, 17, 22, 7, 12, 17, 22, 7, 12, 17, 22,
   5, 9, 14, 20, 5, 9, 14, 20, 5, 9, 14, 20, 5, 9, 14, 20,
   4, 11, 16, 23, 4, 11, 16, 23, 4, 11, 16, 23, 4, 11, 16, 23,
   6, 10, 15, 21, 6, 10, 15, 21, 6, 10, 15, 21, 6, 10, 15, 21]

/-- The four 32-bit MD5 state registers. -/
structure MD5State where
  a : Nat
  b : Nat
  c : Nat
  d : Nat
  deriving Repr, DecidableEq

/-- A group of four bytes read as one little-endian 32-bit word. -/
def leWords : List Nat → List Nat
  | b0 :: b1 :: b2 :: b3 :: rest =>
    (b0 + 256 * b1 + 65536 * b2 + 16777216 * b3) :: leWords rest
  | _ => []

/-- A `Nat` as `n` little-endian bytes. -/
def leBytes (n x : Nat) : List Nat :=
  (List.range n).map (fun i => x / 2 ^ (8 * i) % 256)

/-- One MD5 round on message words `m`. -/
def md5Round (m : List Nat) (st : MD5State) (i : Nat) : MD5State :=
  let fg : Nat × Nat :=
    if i < 16 then ((st.b &&& st.c) ||| (not32 st.b &&& st.d), i)
    else if i < 32 then ((st.d &&& st.b) ||| (not32 st.d &&& st.c), (5 * i + 1) % 16)
    else if i < 48 then (st.b ^^^ st.c ^^^ st.d, (3 * i + 5) % 16)
    else (st.c ^^^ (st.b ||| not32 st.d), (7 * i) % 16)
  let tmp := w32 (st.a + fg.1 + md5K.getD i 0 + m.getD fg.2 0)
  ⟨st.d, w32 (st.b + rotl32 tmp (md5S.getD i 0)), st.b, st.c⟩

/-- Process one padded 64-byte chunk. -/
def md5Chunk (st : MD5State) (chunk : List Nat) : MD5State :=
  let m := leWords chunk
  let r := (List.range 64).foldl (md5Round m) st
  ⟨w32 (st.a + r.a), w32 (st.b + r.b), w32 (st.c + r.c), w32 (st.d + r.d)⟩

/-- MD5 padding: `0x80`, zeros to 56 mod 64, the bit length as eight
little-endian bytes. -/
def md5Pad (msg : List Nat) : List Nat :=
  let padlen := (120 - (msg.length + 1) % 64) % 64
  msg ++ [0x80] ++ List.replicate padlen 0 ++ leBytes 8 (8 * msg.length)

/-- Split into 64-byte chunks (structural recursion on a length fuel, so
that the definition computes by kernel reduction). -/
def chunks64 (l : List Nat) : List (List Nat) :=
  go l.length l
where
  go : Nat → List Nat → List (List Nat)
    | _, [] => []
    | 0, _ :: _ => []
    | fuel + 1, l@(_ :: _) => l.take 64 :: go fuel (l.drop 64)

/-- The MD5 initialization vector. -/
def md5Init : MD5State := ⟨0x67452301, 0xefcdab89, 0x98badcfe, 0x10325476⟩

/-- The 16-byte MD5 digest of a byte string. -/
def md5Bytes (msg : List Nat) : List Nat :=
  let fin := (chunks64 (md5Pad msg)).foldl md5Chunk md5Init
  leBytes 4 fin.a ++ leBytes 4 fin.b ++ leBytes 4 fin.c ++ leBytes 4 fin.d

/-! ## Hex strings, `mac2eui64` (src/wgkex/common/utils.py:11-42) and
`WireGuardClient.lladdr` (src/wgkex/worker/netlink.py:36-51) -/

/-- A nibble as a lowercase hex character (as Python `'%x'`/`hexdigest`). -/
def hexDigitChar (n : Nat) : Char :=
  if n < 10 then Char.ofNat (48 + n) else Char.ofNat (87 + n)

/-- One byte as two lowercase hex characters. -/
def byteToHexPair (b : Nat) : List Char := [hexDigitChar (b / 16), hexDigitChar (b % 16)]

/-- Python `hashlib.md5(...).hexdigest()` character list: two lowercase
hex characters per digest byte. -/
def hexdigestChars (bytes : List Nat) : List Char :=
  (bytes.map byteToHexPair).flatten

/-- The value of one hex character (as `int(…, 16)` on valid digits). -/
def hexVal (c : Char) : Nat :=
  if c ≤ '9' then c.toNat - 48
  else if c ≤ 'F' then c.toNat - 55
  else c.toNat - 87

/-- Python `int(s, 16)` on a string of hex digits. -/
def parseHex (cs : List Char) : Nat :=
  cs.foldl (fun acc c => 16 * acc + hexVal c) 0

/-- Python `hex(n)[2:]`: lowercase hex digits of `n`, no padding
(structural recursion on a fuel bound, so that it computes by kernel
reduction; `fuel ≥ n` always holds at the call sites below). -/
def natToHex (n : Nat) : List Char :=
  if n = 0 then ['0'] else go n n
where
  go : Nat → Nat → List Char
    | _, 0 => []
    | 0, _ + 1 => []
    | fuel + 1, n + 1 => go fuel ((n + 1) / 16) ++ [hexDigitChar ((n + 1) % 16)]

/-- Python `str.zfill(w)`: left-pad with `'0'` to width `w`. -/
def zfill (cs : List Char) (w : Nat) : List Char :=
  List.replicate (w - cs.length) '0' ++ cs

/-- Python `textwrap.wrap(s, 2)` on a string without whitespace: chunks of two
characters (netlink.py:46). -/
def wrap2 : List Char → List (List Char)
  | a :: b :: rest => [a, b] :: wrap2 rest
  | [a] => [[a]]
  | [] => []

/-- Python `re.findall` of four-character chunks (utils.py:39). -/
def chunksOf4 : List Char → List (List Char)
  | a :: b :: c :: d :: rest => [a, b, c, d] :: chunksOf4 rest
  | _ => []

/-- The eight 16-bit hextets of a 128-bit address, most significant
first. -/
def hextetsOf (addr : Nat) : List Nat :=
  (List.range 8).map (fun i => addr / 2 ^ (16 * (7 - i)) % 65536)

/-- The leftmost longest run of `'0'` hextets: CPython
`_compress_hextets`'s scan, returning `(best_start, best_len)`. -/
def bestZeroRun (hs : List (List Char)) : Nat × Nat :=
  let fin := hs.foldl
    (fun (st : Nat × Nat × Nat × Option Nat × Nat) h =>
      let (idx, bs, bl, ds, dl) := st
      if h == ['0'] then
        let ds := match ds with | none => some idx | some s => some s
        let dl := dl + 1
        if dl > bl then (idx + 1, ds.getD 0, dl, ds, dl)
        else (idx + 1, bs, bl, ds, dl)
      else (idx + 1, bs, bl, none, 0))
    (0, 0, 0, none, 0)
  (fin.2.1, fin.2.2.1)

/-- Python `str()` of an `ipaddress.IPv6Address`: CPython's
`_string_from_ip_int` — eight lowercase hextets, the leftmost longest
run of at least two zero hextets compressed to `::`. -/
def ipv6ToString (addr : Nat) : String :=
  let hx := (hextetsOf addr).map natToHex
  let run := bestZeroRun hx
  let hx :=
    if run.2 > 1 then
      let hx := if run.1 + run.2 = hx.length then hx ++ [[]] else hx
      let hx := hx.take run.1 ++ [[]] ++ hx.drop (run.1 + run.2)
      if run.1 = 0 then [] :: hx else hx
    else hx
  String.mk (List.intercalate [':'] hx)

/-- The network `ipaddress.ip_network("fe80::/10", strict=False)` (utils.py:40 for the
prefix `lladdr` passes): host bits of `fe80::` below bit 118 are already
zero, so the network address is `fe80::` itself. -/
def fe80Net : IPv6Net := ⟨0xfe80 * 2 ^ 112, 10⟩

/-- Embeds `mac2eui64` (utils.py:11-42).  The `prefix` argument arrives
already parsed by `ip_network(prefix, strict=False)` (`none` models a
falsy prefix).  `int(…, 16)` is modelled by `parseHex`, total on the hex
digits this function produces.  `net[euil]` checks the index against the
network size (`IndexError` otherwise) and returns
`network_address + euil`. -/
def mac2eui64 (mac : String) (net? : Option IPv6Net) : Except PyErr String :=
  if (mac.data.filter (fun c => c == ':')).length ≠ 5 then
    .error (.exception (mac ++ " does not appear to be a correctly formatted mac address"))
  else
    let eui64 := (mac.data.filter (fun c => ¬ (c ∈ ['.', ':', '-']))).map Char.toLower
    let eui64 := eui64.take 6 ++ ['f', 'f', 'f', 'e'] ++ eui64.drop 6
    let eui64 := zfill (natToHex (parseHex (eui64.take 2) ||| 2)) 2 ++ eui64.drop 2
    match net? with
    | none => .ok (String.mk (List.intercalate [':'] (chunksOf4 eui64)))
    | some net =>
      let euil := parseHex eui64
      if euil < 2 ^ (128 - net.plen) then
        .ok (ipv6ToString (net.addr + euil) ++ "/" ++ toString net.plen)
      else
        .error (.exception "IndexError: address out of range")

/-- Python `re.sub` of the prefix length (netlink.py:49-51): replace a trailing
`/<digits>` suffix by `/128`. -/
def rewritePrefixLen128 (s : String) : String :=
  let rev := s.data.reverse
  let digits := rev.takeWhile Char.isDigit
  let rest := rev.dropWhile Char.isDigit
  match rest, digits with
  | '/' :: tail, _ :: _ => String.mk (tail.reverse ++ ['/', '1', '2', '8'])
  | _, _ => s

/-- Python `public_key.encode("ascii")` (netlink.py:44): the code points of the
string, defined only when all are ASCII (`UnicodeEncodeError`
otherwise). -/
def encodeAscii (s : String) : Option (List Nat) :=
  if s.data.all (fun c => c.toNat < 128) then some (s.data.map Char.toNat) else none

/-- Embeds the body of `WireGuardClient.lladdr` (netlink.py:36-51) on the
ASCII bytes of the public key: md5 of the key plus `b"\n"`, hexdigest
wrapped in pairs, the MAC `02:` plus the first five pairs, `mac2eui64`
with `fe80::/10`, and the prefix length rewritten to `/128`. -/
def lladdr_bytes (key_bytes : List Nat) : Except PyErr String :=
  let hashed_key := hexdigestChars (md5Bytes (key_bytes ++ [10]))
  let hash_as_list := wrap2 hashed_key
  let current_mac_addr :=
    String.mk (List.intercalate [':'] (['0', '2'] :: hash_as_list.take 5))
  (mac2eui64 current_mac_addr (some fe80Net)).map rewritePrefixLen128

/-- Embeds `WireGuardClient.lladdr` (netlink.py:36-51) on the public-key
string. -/
def lladdr (public_key : String) : Except PyErr String :=
  match encodeAscii public_key with
  | none => .error (.exception "UnicodeEncodeError")
  | some key_bytes => lladdr_bytes key_bytes

/-- The spec's formula for the link-local address, stated from the
spec's words (§3): `mac2eui64("02:" + first-5-bytes(md5(pubkey||"\n")),
"fe80::/10")` rewritten to a `/128`; the five bytes are rendered as the
usual two-hex-digit, colon-separated MAC groups. -/
def lladdr_spec_formula (key_bytes : List Nat) : Except PyErr String :=
  let mac_chars :=
    List.intercalate [':']
      (['0', '2'] :: ((md5Bytes (key_bytes ++ [10])).take 5).map byteToHexPair)
  (mac2eui64 (String.mk mac_chars) (some fe80Net)).map rewritePrefixLen128

/-! ## Helper lemmas -/

theorem dictGetD_eq_getD_dictGet? (d : List (String × α)) (k : String) (dflt : α) :
    dictGetD d k dflt = (dictGet? d k).getD dflt := by
  unfold dictGetD dictGet?
  cases d.find? (fun p => p.1 = k) <;> simp

theorem foldl_add_init (f : α → Int) (l : List α) (a : Int) :
    l.foldl (fun acc p => acc + f p) a = a + (l.map f).sum := by
  induction l generalizing a with
  | nil => simp
  | cons x xs ih => simp [ih, add_assoc]

/-! ## Claim theorems -/

/-- C1 (code_bug evidence): `get_best_worker` raises `AttributeError` on
every input — its callee `get_best_workers` dereferences
`workers_cfg.all_pops` (metrics.py:148) on the parsed `config.Workers`,
which defines no attribute `all_pops` (config.py:42-71) — instead of
returning an online worker minimizing `diff`; the repository's own test
`metrics_test.py:70-85` expects `("2", -20, 19)` for two equally
weighted online workers with 20 and 19 peers. -/
theorem c1_get_best_worker_always_raises (c : WorkerMetricsCollection)
    (workers_cfg : Workers) (domain : String) :
    c.get_best_worker workers_cfg domain
      = .error (.attributeError "Workers" "all_pops") := rfl

/-- C2: for a non-empty domain, `is_online` is true iff the worker's
`online` flag is set and its `connected_peers` metric for the domain
(default `-1` when never published) is `≥ 0`; in particular a published
`-1` or a never-published metric yields `false` even while `online` is
true. -/
theorem c2_is_online_iff (wm : WorkerMetrics) (domain : String) (h : domain ≠ "") :
    (wm.is_online domain = true ↔
      wm.online = true ∧
        0 ≤ dictGetD (wm.get_domain_metrics domain) CONNECTED_PEERS_METRIC (-1))
    ∧ (dictGetD (wm.get_domain_metrics domain) CONNECTED_PEERS_METRIC (-1) = -1 →
        wm.is_online domain = false)
    ∧ (dictGet? (wm.get_domain_metrics domain) CONNECTED_PEERS_METRIC = none →
        wm.is_online domain = false) := by
  refine ⟨?_, ?_, ?_⟩
  · simp [WorkerMetrics.is_online, h, ge_iff_le]
  · intro hm
    simp [WorkerMetrics.is_online, h, hm]
  · intro hm
    have : dictGetD (wm.get_domain_metrics domain) CONNECTED_PEERS_METRIC (-1) = -1 := by
      rw [dictGetD_eq_getD_dictGet?, hm]; rfl
    simp [WorkerMetrics.is_online, h, this]

/-- C2 witness: a worker whose `connected_peers` on domain `"d"` is `-1`
is offline for `"d"` while its flag is online, and one with `5` is
online. -/
theorem c2_is_online_witness :
    (WorkerMetrics.is_online ⟨"w", [("d", [("connected_peers", -1)])], true⟩ "d" = false)
    ∧ (WorkerMetrics.is_online ⟨"w", [("d", [("connected_peers", 5)])], true⟩ "d" = true)
    ∧ (WorkerMetrics.is_online ⟨"w", [], true⟩ "d" = false) := by
  refine ⟨?_, ?_, ?_⟩
  · exact (c2_is_online_iff ⟨"w", [("d", [("connected_peers", -1)])], true⟩ "d"
      (by decide)).2.1 (by decide)
  · exact (c2_is_online_iff ⟨"w", [("d", [("connected_peers", 5)])], true⟩ "d"
      (by decide)).1.mpr ⟨rfl, by decide⟩
  · exact (c2_is_online_iff ⟨"w", [], true⟩ "d" (by decide)).2.2 (by decide)

/-- C9: parsing the workers configuration gives
`total_weight = max(1, Σ parsed weights)` where a configured weight `0`
parses to `1`; with `N ≥ 1` workers all of weight `0` the total is `N`;
and `relative_worker_weight` of a configured worker is its parsed weight
over the total. -/
theorem c9_workers_weights (cfg : List (String × Int)) :
    ((Workers.from_dict cfg).total_weight
        = max 1 ((cfg.map (fun p => if p.2 = 0 then 1 else p.2)).sum))
    ∧ ((∀ p ∈ cfg, p.2 = 0) → cfg ≠ [] →
        (Workers.from_dict cfg).total_weight = cfg.length)
    ∧ (∀ name w, (Workers.from_dict cfg).get name = some w →
        (Workers.from_dict cfg).relative_worker_weight name
          = (w.weight : ℚ) / ((Workers.from_dict cfg).total_weight : ℚ)) := by
  have htot : (Workers.from_dict cfg).total_weight
      = max 1 ((cfg.map (fun p => if p.2 = 0 then 1 else p.2)).sum) := by
    show max (List.foldl _ 0 _) 1 = _
    rw [foldl_add_init (fun p : String × Worker => p.2.weight) _ 0, zero_add, max_comm]
    rw [List.map_map]
    have hmap : List.map ((fun p : String × Worker => p.2.weight)
          ∘ fun p : String × Int => (p.1, Worker.from_dict p.2)) cfg
        = List.map (fun p => if p.2 = 0 then 1 else p.2) cfg := by
      apply List.map_congr_left
      intro p _
      show (if p.2 ≠ 0 then p.2 else 1) = _
      by_cases h : p.2 = 0 <;> simp [h]
    rw [hmap]
  refine ⟨htot, ?_, ?_⟩
  · intro hz hne
    rw [htot]
    have : cfg.map (fun p => if p.2 = 0 then 1 else p.2)
        = List.replicate cfg.length (1 : Int) := by
      rw [List.eq_replicate_iff]
      refine ⟨by simp, ?_⟩
      intro b hb
      obtain ⟨p, hp, rfl⟩ := List.mem_map.mp hb
      simp [hz p hp]
    rw [this, List.sum_replicate, nsmul_eq_mul, mul_one]
    have hpos : 1 ≤ cfg.length := List.length_pos.mpr hne
    exact max_eq_right (by exact_mod_cast hpos)
  · intro name w hget
    unfold Workers.relative_worker_weight
    rw [hget]

/-- C9 witness: two workers both configured with weight `0` parse to
weight `1` each, total weight `2`, relative weight `1/2`. -/
theorem c9_workers_weights_witness :
    (Workers.from_dict [("a", 0), ("b", 0)]).total_weight = 2
    ∧ (Workers.from_dict [("a", 0), ("b", 0)]).relative_worker_weight "a" = 1 / 2 := by
  have h := c9_workers_weights [("a", 0), ("b", 0)]
  have htot : (Workers.from_dict [("a", 0), ("b", 0)]).total_weight = 2 :=
    (h.2.1 (by decide) (by decide)).trans (by rfl)
  refine ⟨htot, ?_⟩
  have hrel := h.2.2 "a" ⟨1⟩ (by rfl)
  rw [hrel, htot]
  norm_num

/-- C3: a v1 request whose public key fails the WireGuard key regex
(including an absent key) or whose domain is not a configured domain
with a configured prefix yields `400` with the generic error body and no
bus publish; a valid request publishes exactly the public key on
`wireguard/<domain>/all` and returns `\x7b"Message":"OK"\x7d` with
`200`. -/
theorem c3_v1_key_exchange (cfg : Config) (msg : KeyExchangeMsg) :
    (∀ k, msg.public_key = some k → WG_PUBKEY_PATTERN_match k = true →
        is_valid_domain cfg (pyStrOfOption msg.domain) = true →
        wg_api_v1_key_exchange cfg msg
          = ⟨.messageOK, 200, [("wireguard/" ++ pyStrOfOption msg.domain ++ "/all", k)]⟩)
    ∧ (msg.public_key = none →
        wg_api_v1_key_exchange cfg msg = ⟨.error genericErrorMessage, 400, []⟩)
    ∧ (∀ k, msg.public_key = some k → WG_PUBKEY_PATTERN_match k = false →
        wg_api_v1_key_exchange cfg msg = ⟨.error genericErrorMessage, 400, []⟩)
    ∧ (is_valid_domain cfg (pyStrOfOption msg.domain) = false →
        wg_api_v1_key_exchange cfg msg = ⟨.error genericErrorMessage, 400, []⟩) := by
  refine ⟨?_, ?_, ?_, ?_⟩
  · intro k hk hmatch hdom
    simp [wg_api_v1_key_exchange, KeyExchange.from_dict, is_valid_wg_pubkey, hk,
      hmatch, hdom, Except.bind]
  · intro hk
    simp [wg_api_v1_key_exchange, KeyExchange.from_dict, is_valid_wg_pubkey, hk,
      Except.bind]
  · intro k hk hmatch
    simp [wg_api_v1_key_exchange, KeyExchange.from_dict, is_valid_wg_pubkey, hk,
      hmatch, Except.bind]
  · intro hdom
    cases hk : msg.public_key with
    | none =>
      simp [wg_api_v1_key_exchange, KeyExchange.from_dict, is_valid_wg_pubkey, hk,
        Except.bind]
    | some k =>
      by_cases hmatch : WG_PUBKEY_PATTERN_match k
      all_goals
        simp [wg_api_v1_key_exchange, KeyExchange.from_dict, is_valid_wg_pubkey, hk,
          hmatch, hdom, Except.bind]

/-- The broker configuration of the spec's seed scenarios: one domain
`ffmuc_welt` with prefix `ffmuc_`. -/
def cfgMuc : Config :=
  { domains := ["ffmuc_welt"], domain_prefixes := ["ffmuc_"],
    workers := Workers.from_dict [] }

/-- The valid example key of the spec's seed scenarios (§8). -/
def exampleKey : String := "o52Ge+Rpj4CUSitVag9mS7pSXUesNM0ESnvj/wwehkg="

/-- C3 witness: the seed request succeeds with one publish of the key on
`wireguard/ffmuc_welt/all`, and the seed invalid key `"not_a_key"` is
rejected with the generic 400 body and no publish. -/
theorem c3_v1_key_exchange_witness :
    wg_api_v1_key_exchange cfgMuc ⟨some exampleKey, some "ffmuc_welt"⟩
      = ⟨.messageOK, 200, [("wireguard/ffmuc_welt/all", exampleKey)]⟩
    ∧ wg_api_v1_key_exchange cfgMuc ⟨some "not_a_key", some "ffmuc_welt"⟩
      = ⟨.error genericErrorMessage, 400, []⟩ :=
  ⟨(c3_v1_key_exchange cfgMuc ⟨some exampleKey, some "ffmuc_welt"⟩).1 exampleKey rfl
      (by decide) (by decide),
   (c3_v1_key_exchange cfgMuc ⟨some "not_a_key", some "ffmuc_welt"⟩).2.2.1 "not_a_key" rfl
      (by decide)⟩

/-- C4 counterexample: the work queue is backed by a `set`
(`_init`/`_put`/`_get`, msg_queue.py:21-28), whose `pop()` returns an
arbitrary element; after enqueueing `("d","k1")` then `("d","k2")`, a
get step returning `("d","k2")` is allowed by the code, so successive
gets are not guaranteed to return items in first-enqueued order. -/
theorem c4_fifo_counterexample : ¬ UniqueQueueFifoClaim := by
  intro h
  have := h ("d", "k1") ("d", "k2") ("d", "k2") ⟨[("d", "k1")]⟩ (by decide)
    ⟨by decide, by decide⟩
  exact absurd this (by decide)

/-- C4 (amended): the queue deduplicates — `put` of a pending item
leaves the queue unchanged, every `put`/`get` step preserves the
at-most-once invariant — and a get returns some pending item (removing
it), but in an arbitrary order, not necessarily first-enqueued-first. -/
theorem c4_unique_queue_dedup (q : UniqueQueue) (item x : String × String)
    (q' : UniqueQueue) :
    (item ∈ q.queue → q.put item = q)
    ∧ (q.queue.Nodup → (q.put item).queue.Nodup)
    ∧ (q.queue.Nodup → q.getRel x q' →
        q'.queue.Nodup ∧ x ∈ q.queue ∧ x ∉ q'.queue) := by
  refine ⟨?_, ?_, ?_⟩
  · intro hmem
    simp [UniqueQueue.put, hmem]
  · intro hnd
    by_cases hmem : item ∈ q.queue
    · simpa [UniqueQueue.put, hmem] using hnd
    · simp [UniqueQueue.put, hmem, List.nodup_append, hnd, List.disjoint_singleton]
  · rintro hnd ⟨hmem, herase⟩
    refine ⟨?_, hmem, ?_⟩
    · rw [herase]; exact hnd.erase x
    · rw [herase]
      intro hx
      exact absurd ((hnd.mem_erase_iff).mp hx).1 (by simp)

/-- C4 witness: `put` of the already-pending `("d","k1")` is a no-op, and
a get step from the singleton queue returns it, leaving the empty
deduplicated queue. -/
theorem c4_unique_queue_dedup_witness :
    UniqueQueue.put ⟨[("d", "k1")]⟩ ("d", "k1") = ⟨[("d", "k1")]⟩
    ∧ (UniqueQueue.mk [] : UniqueQueue).queue.Nodup
    ∧ ("d", "k1") ∈ (UniqueQueue.mk [("d", "k1")]).queue := by
  have h := c4_unique_queue_dedup ⟨[("d", "k1")]⟩ ("d", "k1") ("d", "k1") ⟨[]⟩
  refine ⟨h.1 (by decide), ?_, ?_⟩
  · exact (h.2.2 (by decide) ⟨by decide, by decide⟩).1
  · exact (h.2.2 (by decide) ⟨by decide, by decide⟩).2.1

/-- C10: a dumped peer that has no `WGPEER_A_LAST_HANDSHAKE_TIME`
attribute at all is never part of `find_stale_wireguard_clients`'s
result — the walrus filter (netlink.py:215) requires the attribute to be
present — so a never-handshaken peer is never flushed, however old. -/
theorem c10_never_handshaken_not_stale (cfg : Config) (now : Int)
    (msgs : List WGMsg) (k : String)
    (h : ∀ p ∈ allPeers msgs, p.public_key = k → p.last_handshake_time = none) :
    k ∉ find_stale_wireguard_clients cfg now msgs := by
  intro hmem
  unfold find_stale_wireguard_clients at hmem
  obtain ⟨peer, hfilter, hpk⟩ := List.mem_map.mp hmem
  have hin := List.mem_of_mem_filter hfilter
  have hpred := List.of_mem_filter hfilter
  have hnone := h peer hin hpk
  rw [hnone] at hpred
  exact absurd hpred (by simp)

/-- C10 witness: a peer with no handshake attribute is not returned even
with an ancient creation, while a stale handshaken peer is. -/
theorem c10_never_handshaken_witness :
    "NEVER" ∉ find_stale_wireguard_clients cfgMuc 1000000
      [⟨some [⟨"NEVER", none⟩, ⟨"KEYA", some ⟨some 982000⟩⟩]⟩] :=
  c10_never_handshaken_not_stale cfgMuc 1000000
    [⟨some [⟨"NEVER", none⟩, ⟨"KEYA", some ⟨some 982000⟩⟩]⟩] "NEVER" (by decide)

/-- Filtering on a conjunction whose second half only looks at the mapped
value commutes with mapping: used to peel the whitelist test off the
stale filter. -/
theorem filter_and_comm (f : α → β) (p : α → Bool) (q : β → Bool) (l : List α) :
    (l.filter (fun a => p a && q (f a))).map f = ((l.filter p).map f).filter q := by
  induction l with
  | nil => rfl
  | cons x xs ih =>
    by_cases hp : p x = true
    · by_cases hq : q (f x) = true
        <;> simp [List.filter_cons, hp, hq, ih]
    · simp [List.filter_cons, Bool.eq_false_iff.mpr hp, ih]

/-- C5 (amended): one flusher invocation issues `remove=True` clients for
exactly the peers whose handshake is older than 3 hours AND whose key is
not in the configured `key_whitelist`; with no whitelist configured (the
spec's configuration) that is exactly the stale peers. -/
theorem c5_flush_stale (cfg : Config) (now : Int) (msgs : List WGMsg) (domain : String) :
    ((wg_flush_stale_peers_clients cfg now msgs domain).map (·.public_key)
        = (specStalePeers now msgs).filter
            (fun k => !((cfg.key_whitelist.getD []).contains k)))
    ∧ (∀ c ∈ wg_flush_stale_peers_clients cfg now msgs domain,
        c.remove = true ∧ c.domain = domain)
    ∧ (cfg.key_whitelist = none →
        (wg_flush_stale_peers_clients cfg now msgs domain).map (·.public_key)
          = specStalePeers now msgs) := by
  have hpred : ∀ peer ∈ allPeers msgs,
      (match peer.last_handshake_time with
        | none => false
        | some hshk_time =>
          decide (hshk_time.tv_sec.getD 0 < now - _PEER_TIMEOUT_HOURS * 3600)
            && !((cfg.key_whitelist.getD []).contains peer.public_key))
      = ((fun peer : WGPeer =>
            match peer.last_handshake_time with
            | none => false
            | some hshk_time =>
              decide (hshk_time.tv_sec.getD 0 < now - _PEER_TIMEOUT_HOURS * 3600)) peer
          && (fun k => !((cfg.key_whitelist.getD []).contains k)) peer.public_key) := by
    intro peer _
    cases hh : peer.last_handshake_time <;> simp [hh]
  have hkey : find_stale_wireguard_clients cfg now msgs
      = (specStalePeers now msgs).filter
          (fun k => !((cfg.key_whitelist.getD []).contains k)) := by
    show ((allPeers msgs).filter _).map (·.public_key) = _
    rw [List.filter_congr hpred]
    exact filter_and_comm (·.public_key)
      (fun peer : WGPeer =>
        match peer.last_handshake_time with
        | none => false
        | some hshk_time =>
          decide (hshk_time.tv_sec.getD 0 < now - _PEER_TIMEOUT_HOURS * 3600))
      (fun k => !((cfg.key_whitelist.getD []).contains k)) (allPeers msgs)
  have h1 : (wg_flush_stale_peers_clients cfg now msgs domain).map (·.public_key)
      = (specStalePeers now msgs).filter
          (fun k => !((cfg.key_whitelist.getD []).contains k)) := by
    rw [← hkey]
    unfold wg_flush_stale_peers_clients
    rw [List.map_map]
    exact List.map_id' _
  refine ⟨h1, ?_, ?_⟩
  · intro c hc
    obtain ⟨k, _, rfl⟩ :=
      List.mem_map.mp (hc : c ∈ (find_stale_wireguard_clients cfg now msgs).map _)
    exact ⟨rfl, rfl⟩
  · intro hwl
    rw [h1, hwl]
    simp

/-- The kernel dump of the spec's stale-flush seed scenario at time
`1000000`: peer `KEYA` handshaken 5 h ago, peer `KEYB` 30 s ago. -/
def staleDump : List WGMsg :=
  [⟨some [⟨"KEYA", some ⟨some 982000⟩⟩, ⟨"KEYB", some ⟨some 999970⟩⟩]⟩]

/-- A configuration whose key whitelist contains the stale peer. -/
def cfgWhitelist : Config :=
  { domains := ["ffmuc_welt"], domain_prefixes := ["ffmuc_"],
    workers := Workers.from_dict [], key_whitelist := some ["KEYA"] }

/-- C5 counterexample: peer `KEYA` is the only peer handshaken more than
3 hours ago, yet with `key_whitelist = ["KEYA"]` the flusher issues no
removal at all (netlink.py:217), so it does not remove \"exactly those
peers whose most recent handshake is older than 3 hours\". -/
theorem c5_flush_stale_counterexample :
    specStalePeers 1000000 staleDump = ["KEYA"]
    ∧ wg_flush_stale_peers_clients cfgWhitelist 1000000 staleDump "welt" = []
    ∧ (wg_flush_stale_peers_clients cfgWhitelist 1000000 staleDump "welt").map
        (·.public_key) ≠ specStalePeers 1000000 staleDump := by
  refine ⟨by decide, by decide, by decide⟩

/-- C5 witness: in the seed scenario (no whitelist configured), exactly
one removal is issued, for the 5-h-stale peer `KEYA`, with
`remove = true` on domain `welt`. -/
theorem c5_flush_stale_witness :
    (wg_flush_stale_peers_clients cfgMuc 1000000 staleDump "welt").map (·.public_key)
      = ["KEYA"]
    ∧ (WireGuardClient.remove ⟨"KEYA", "welt", true⟩ = true
        ∧ WireGuardClient.domain ⟨"KEYA", "welt", true⟩ = "welt") := by
  have h := c5_flush_stale cfgMuc 1000000 staleDump "welt"
  exact ⟨(h.2.2 rfl).trans (by decide), h.2.1 ⟨"KEYA", "welt", true⟩ (by decide)⟩

/-- An environment whose WireGuard-peer operation raises. -/
def envWgFails : NetlinkEnv :=
  ⟨fun _ => .error (.exception "NetlinkError"), fun _ => .ok "route-ok",
   fun _ => .ok "fdb-ok"⟩

/-- An environment whose route operation raises. -/
def envRouteFails : NetlinkEnv :=
  ⟨fun _ => .ok "wg-ok", fun _ => .error (.exception "RouteError"),
   fun _ => .ok "fdb-ok"⟩

/-- The example client the C6 environments are probed with. -/
def clientA : WireGuardClient := ⟨"KEYA", "welt", false⟩

/-- C6 counterexample: when the WireGuard peer operation raises, the
exception is NOT captured in a result map — `link_handler` propagates it
(only the route step is wrapped in `try`, netlink.py:102-113) — and the
route and FDB steps are never attempted, refuting \"an error raised by
any one of the three steps is captured in the returned result map and
does not prevent the remaining steps\". -/
theorem c6_link_handler_counterexample :
    link_handler envWgFails clientA = (.error (.exception "NetlinkError"), ["Wireguard"])
    ∧ (link_handler envWgFails clientA).2 ≠ ["Wireguard", "Route", "Bridge FDB"] :=
  ⟨rfl, by decide⟩

/-- C6 (amended): the three operations run in the order WireGuard peer →
route → bridge FDB; an error in the route step is captured in the result
map and does not prevent the FDB step; an error in the WireGuard step
propagates and prevents the route and FDB steps; an error in the FDB
step propagates, discarding the result map. -/
theorem c6_link_handler_order (env : NetlinkEnv) (client : WireGuardClient) :
    (∀ e, env.update_wireguard_peer client = .error e →
        link_handler env client = (.error e, ["Wireguard"]))
    ∧ (∀ wgr, env.update_wireguard_peer client = .ok wgr →
        ((link_handler env client).2 = ["Wireguard", "Route", "Bridge FDB"]
         ∧ (∀ e fdbr, env.route_handler client = .error e →
              env.bridge_fdb_handler client = .ok fdbr →
              (link_handler env client).1
                = .ok [("Wireguard", .ok wgr), ("Route", .captured e),
                       ("Bridge FDB", .ok fdbr)])
         ∧ (∀ e, env.bridge_fdb_handler client = .error e →
              (link_handler env client).1 = .error e))) := by
  constructor
  · intro e he
    simp [link_handler, he]
  · intro wgr hw
    refine ⟨?_, ?_, ?_⟩
    · cases hr : env.route_handler client
        <;> cases hf : env.bridge_fdb_handler client
        <;> simp [link_handler, hw, hr, hf]
    · intro e fdbr hr hf
      simp [link_handler, hw, hr, hf]
    · intro e hf
      cases hr : env.route_handler client
        <;> simp [link_handler, hw, hr, hf]

/-- C6 witness: with a failing route operation, the result map records
the captured route exception between the successful WireGuard and FDB
results, all three steps having been attempted in order. -/
theorem c6_link_handler_order_witness :
    link_handler envRouteFails clientA
      = (.ok [("Wireguard", .ok "wg-ok"), ("Route", .captured (.exception "RouteError")),
              ("Bridge FDB", .ok "fdb-ok")],
         ["Wireguard", "Route", "Bridge FDB"]) := by
  have h := c6_link_handler_order envRouteFails clientA
  have h2 := h.2 "wg-ok" rfl
  exact Prod.ext (h2.2.1 (.exception "RouteError") "fdb-ok" rfl rfl) h2.1

/-! ### Dictionary and subnet lemmas for the IPAM proof -/

theorem dictSet_cons_of_ne (p : String × α) (ps : List (String × α)) (k : String)
    (v : α) (hp : ¬ p.1 = k) :
    dictSet (p :: ps) k v = p :: dictSet ps k v := by
  by_cases hps : ps.any (fun q => q.1 = k) <;> simp [dictSet, List.any_cons, hp, hps]

theorem dictGet?_cons_of_ne (p : String × α) (ps : List (String × α)) (k : String)
    (hp : ¬ p.1 = k) : dictGet? (p :: ps) k = dictGet? ps k := by
  simp [dictGet?, List.find?_cons, hp]

theorem dictGet?_dictSet_self (d : List (String × α)) (k : String) (v : α) :
    dictGet? (dictSet d k v) k = some v := by
  induction d with
  | nil => simp [dictGet?, dictSet]
  | cons p ps ih =>
    by_cases hp : p.1 = k
    · have hany : (p :: ps).any (fun q => q.1 = k) = true := by
        simp [List.any_cons, hp]
      simp [dictSet, hany, dictGet?, List.find?_cons, hp]
    · rw [dictSet_cons_of_ne p ps k v hp, dictGet?_cons_of_ne _ _ _ hp]
      exact ih

theorem map_if_key_id (k : String) (w : String × α) (l : List (String × α))
    (hl : ∀ q ∈ l, ¬ q.1 = k) :
    l.map (fun q => if q.1 = k then w else q) = l := by
  induction l with
  | nil => rfl
  | cons q qs ih =>
    simp only [List.map_cons, if_neg (hl q (by simp))]
    rw [ih (fun r hr => hl r (by simp [hr]))]

theorem dictSet_self_eq (d : List (String × α)) (k : String) (v : α)
    (hnd : (d.map (·.1)).Nodup) (hget : dictGet? d k = some v) :
    dictSet d k v = d := by
  induction d with
  | nil => simp [dictGet?] at hget
  | cons p ps ih =>
    rw [List.map_cons] at hnd
    by_cases hp : p.1 = k
    · have hv : p.2 = v := by
        simpa [dictGet?, List.find?_cons, hp] using hget
      have hknot : ∀ q ∈ ps, ¬ q.1 = k := by
        intro q hq hqk
        apply (List.nodup_cons.mp hnd).1
        rw [hp, ← hqk]
        exact List.mem_map.mpr ⟨q, hq, rfl⟩
      have hany : (p :: ps).any (fun q => q.1 = k) = true := by
        simp [List.any_cons, hp]
      have hhead : (k, v) = p := by
        rw [← hp, ← hv]
      have hone : dictSet (p :: ps) k v = (k, v) :: ps := by
        simp [dictSet, hany, hp, map_if_key_id k (k, v) ps hknot]
      rw [hone, hhead]
    · rw [dictSet_cons_of_ne p ps k v hp]
      rw [ih (List.nodup_cons.mp hnd).2
          (by rwa [dictGet?_cons_of_ne p ps k hp] at hget)]

/-- The network `DEFAULT_PARENT` parses strictly: it is a normalized network. -/
theorem DEFAULT_PARENT_normalized : DEFAULT_PARENT.Normalized := by decide

/-- Every generated subnet of a normalized parent passes `subnet_of` the
parent. -/
theorem subnets_subnet_of (parent : IPv6Net) (L : Nat) (hp : parent.Normalized)
    (h1 : parent.plen ≤ L) (h2 : L ≤ 128) (c : IPv6Net)
    (hc : c ∈ parent.subnets L) : c.subnet_of parent = true := by
  obtain ⟨i, hi, rfl⟩ := List.mem_map.mp hc
  have hiR : i < 2 ^ (L - parent.plen) := List.mem_range.mp hi
  obtain ⟨hplen, haddr, hmod⟩ := hp
  unfold IPv6Net.subnet_of
  simp only [Bool.and_eq_true, decide_eq_true_eq, beq_iff_eq]
  refine ⟨h1, ?_⟩
  have hM : 0 < 2 ^ (128 - parent.plen) := Nat.pos_pow_of_pos _ (by norm_num)
  have hdvd : 2 ^ (128 - parent.plen) ∣ parent.addr := Nat.dvd_of_mod_eq_zero hmod
  obtain ⟨q, hq⟩ := hdvd
  have hr : i * 2 ^ (128 - L) < 2 ^ (128 - parent.plen) := by
    have hc : 0 < 2 ^ (128 - L) := Nat.pos_pow_of_pos _ (by norm_num)
    calc i * 2 ^ (128 - L) < 2 ^ (L - parent.plen) * 2 ^ (128 - L) :=
          (Nat.mul_lt_mul_right hc).mpr hiR
    _ = 2 ^ (128 - parent.plen) := by
          rw [← pow_add]
          congr 1
          omega
  rw [hq, Nat.mul_add_div hM, Nat.mul_div_cancel_left _ hM,
    Nat.div_eq_of_lt hr, Nat.add_zero]

/-- A second `get_or_allocate_prefix` hitting a stored range that is a
subnet of the stored parent returns it and leaves the file alone. -/
theorem call_of_written (parent : IPv6Net) (ranges : List (String × IPv6Net))
    (pubkey : String) (r : IPv6Net) (l4 l6 : Nat)
    (hget : dictGet? ranges pubkey = some r)
    (hsub : r.subnet_of parent = true) :
    get_or_allocate_prefix (.valid (some parent) ranges) pubkey false true l4 l6
      = (.ok (some r, []), .valid (some parent) ranges) := by
  simp [ get_or_allocate_prefix, hget, hsub]

/-- A `get_or_allocate_prefix` whose stored range is not a subnet of the
parent and whose candidate walk finds nothing free falls back to the
stored range, rewriting the file with it. -/
theorem call_realloc_exhausted (parent : IPv6Net) (ranges : List (String × IPv6Net))
    (pubkey : String) (r : IPv6Net) (l4 l6 : Nat)
    (hget : dictGet? ranges pubkey = some r)
    (hsub : r.subnet_of parent = false)
    (hguard : ¬ (l6 < parent.plen ∨ 128 < l6))
    (hfind : ((parent.subnets l6).drop 1).find?
        (fun candidate =>
          ¬ ((ranges.map (·.2)).filter (fun rg => rg.subnet_of parent)).contains candidate)
      = none) :
    get_or_allocate_prefix (.valid (some parent) ranges) pubkey false true l4 l6
      = (.ok (some r, []), .valid (some parent) (dictSet ranges pubkey r)) := by
  have hfind' : List.find?
      (fun candidate =>
        !decide (candidate ∈
          List.filter (fun rg => rg.subnet_of parent) (List.map (fun x => x.2) ranges)))
      (parent.subnets l6).tail = none := by
    simpa using hfind
  simp [ get_or_allocate_prefix, get_or_allocate_prefix.allocate, hget, hsub, hguard, hfind']

/-- C7: `get_or_allocate_prefix` is idempotent: a second call with the
same pubkey (and no other mutation of the persisted ranges in between)
returns the same result — in particular the same IPv6 prefix — and
leaves the persisted ranges exactly as the first call left them. -/
theorem c7_get_or_allocate_idempotent (st : IPAMFile) (pubkey : String)
    (ipv4 ipv6 : Bool) (l4 l6 : Nat) (hwf : st.WellFormed) :
    ( get_or_allocate_prefix ( get_or_allocate_prefix st pubkey ipv4 ipv6 l4 l6).2
        pubkey ipv4 ipv6 l4 l6).1
      = ( get_or_allocate_prefix st pubkey ipv4 ipv6 l4 l6).1
    ∧ ( get_or_allocate_prefix ( get_or_allocate_prefix st pubkey ipv4 ipv6 l4 l6).2
        pubkey ipv4 ipv6 l4 l6).2
      = ( get_or_allocate_prefix st pubkey ipv4 ipv6 l4 l6).2 := by
  cases ipv4 with
  | true => exact ⟨rfl, rfl⟩
  | false =>
  cases ipv6 with
  | false => exact ⟨rfl, rfl⟩
  | true =>
  rcases st with _ | _ | ⟨pp, rgs⟩
  case missing =>
    rcases hres : get_or_allocate_prefix .missing pubkey false true l4 l6 with ⟨r1, s1⟩
    have hres' := hres
    simp only [ get_or_allocate_prefix, Bool.false_eq_true, if_false, not_true,
      dictGet?, List.find?_nil, Option.map_none'] at hres
    unfold get_or_allocate_prefix.allocate at hres
    split at hres
    · injection hres with h1 h2
      subst h1; subst h2
      exact ⟨by rw [hres'], by rw [hres']⟩
    · rename_i hguard
      push_neg at hguard
      simp only [List.map_nil, List.filter_nil] at hres
      split at hres
      · rename_i x old cand heq
        injection hres with h1 h2
        subst h1; subst h2
        have hcw := call_of_written DEFAULT_PARENT (dictSet [] pubkey cand) pubkey cand l4 l6
          (dictGet?_dictSet_self [] pubkey cand)
          (subnets_subnet_of DEFAULT_PARENT l6 DEFAULT_PARENT_normalized
            hguard.1 hguard.2 cand
            (List.mem_of_mem_drop (List.mem_of_find?_eq_some heq)))
        exact ⟨by rw [hcw], by rw [hcw]⟩
      · rename_i x old cand hfind heq
        exact absurd heq (by simp)
      · injection hres with h1 h2
        subst h1; subst h2
        exact ⟨by rw [hres'], by rw [hres']⟩
  case corrupt =>
    rcases hres : get_or_allocate_prefix .corrupt pubkey false true l4 l6 with ⟨r1, s1⟩
    have hres' := hres
    simp only [ get_or_allocate_prefix, Bool.false_eq_true, if_false, not_true,
      dictGet?, List.find?_nil, Option.map_none'] at hres
    unfold get_or_allocate_prefix.allocate at hres
    split at hres
    · injection hres with h1 h2
      subst h1; subst h2
      exact ⟨by rw [hres'], by rw [hres']⟩
    · rename_i hguard
      push_neg at hguard
      simp only [List.map_nil, List.filter_nil] at hres
      split at hres
      · rename_i x old cand heq
        injection hres with h1 h2
        subst h1; subst h2
        have hcw := call_of_written DEFAULT_PARENT (dictSet [] pubkey cand) pubkey cand l4 l6
          (dictGet?_dictSet_self [] pubkey cand)
          (subnets_subnet_of DEFAULT_PARENT l6 DEFAULT_PARENT_normalized
            hguard.1 hguard.2 cand
            (List.mem_of_mem_drop (List.mem_of_find?_eq_some heq)))
        exact ⟨by rw [hcw], by rw [hcw]⟩
      · rename_i x old cand hfind heq
        exact absurd heq (by simp)
      · injection hres with h1 h2
        subst h1; subst h2
        exact ⟨by rw [hres'], by rw [hres']⟩
  case valid =>
    obtain ⟨hwfp, hnd⟩ := hwf
    cases pp with
    | some p =>
      have hpn : p.Normalized := hwfp p (by simp)
      rcases hres : get_or_allocate_prefix (.valid (some p) rgs) pubkey false true l4 l6
        with ⟨r1, s1⟩
      have hres' := hres
      simp only [ get_or_allocate_prefix, Bool.false_eq_true, if_false, not_true] at hres
      split at hres
      · rename_i r heqget
        split at hres
        · injection hres with h1 h2
          subst h1; subst h2
          exact ⟨by rw [hres'], by rw [hres']⟩
        · rename_i hnsub
          unfold get_or_allocate_prefix.allocate at hres
          split at hres
          · injection hres with h1 h2
            subst h1; subst h2
            exact ⟨by rw [hres'], by rw [hres']⟩
          · rename_i hguard
            simp only [] at hres
            split at hres
            · rename_i x2 old2 cand heqf
              injection hres with h1 h2
              subst h1; subst h2
              have hg2 := hguard
              push_neg at hg2
              have hcw := call_of_written p (dictSet rgs pubkey cand) pubkey cand l4 l6
                (dictGet?_dictSet_self rgs pubkey cand)
                (subnets_subnet_of p l6 hpn hg2.1 hg2.2 cand
                  (List.mem_of_mem_drop (List.mem_of_find?_eq_some heqf)))
              exact ⟨by rw [hcw], by rw [hcw]⟩
            · rename_i x2 old2 cand heqf heqo
              injection heqo with hro
              subst hro
              injection hres with h1 h2
              subst h1; subst h2
              have hcollapse : dictSet rgs pubkey r = rgs :=
                dictSet_self_eq rgs pubkey r hnd heqget
              have hcr := call_realloc_exhausted p rgs pubkey r l4 l6 heqget
                (by simp at hnsub; exact hnsub) hguard heqf
              exact ⟨by simp [hcollapse, hcr], by simp [hcollapse, hcr]⟩
            · rename_i x2 old2 heqf heqo
              exact absurd heqo (by simp)
      · rename_i heqget
        unfold get_or_allocate_prefix.allocate at hres
        split at hres
        · injection hres with h1 h2
          subst h1; subst h2
          exact ⟨by rw [hres'], by rw [hres']⟩
        · rename_i hguard
          simp only [] at hres
          split at hres
          · rename_i x2 old2 cand heqf
            injection hres with h1 h2
            subst h1; subst h2
            have hg2 := hguard
            push_neg at hg2
            have hcw := call_of_written p (dictSet rgs pubkey cand) pubkey cand l4 l6
              (dictGet?_dictSet_self rgs pubkey cand)
              (subnets_subnet_of p l6 hpn hg2.1 hg2.2 cand
                (List.mem_of_mem_drop (List.mem_of_find?_eq_some heqf)))
            exact ⟨by rw [hcw], by rw [hcw]⟩
          · rename_i x2 old2 cand heqf heqo
            exact absurd heqo (by simp)
          · injection hres with h1 h2
            subst h1; subst h2
            exact ⟨by rw [hres'], by rw [hres']⟩
    | none =>
      rcases hres : get_or_allocate_prefix (.valid none rgs) pubkey false true l4 l6
        with ⟨r1, s1⟩
      have hres' := hres
      simp only [ get_or_allocate_prefix, Bool.false_eq_true, if_false, not_true] at hres
      split at hres
      · rename_i r heqget
        split at hres
        · injection hres with h1 h2
          subst h1; subst h2
          exact ⟨by rw [hres'], by rw [hres']⟩
        · rename_i hnsub
          unfold get_or_allocate_prefix.allocate at hres
          split at hres
          · injection hres with h1 h2
            subst h1; subst h2
            exact ⟨by rw [hres'], by rw [hres']⟩
          · rename_i hguard
            simp only [] at hres
            split at hres
            · rename_i x2 old2 cand heqf
              injection hres with h1 h2
              subst h1; subst h2
              have hg2 := hguard
              push_neg at hg2
              have hcw := call_of_written DEFAULT_PARENT (dictSet rgs pubkey cand) pubkey
                cand l4 l6 (dictGet?_dictSet_self rgs pubkey cand)
                (subnets_subnet_of DEFAULT_PARENT l6 DEFAULT_PARENT_normalized hg2.1 hg2.2
                  cand (List.mem_of_mem_drop (List.mem_of_find?_eq_some heqf)))
              exact ⟨by rw [hcw], by rw [hcw]⟩
            · rename_i x2 old2 cand heqf heqo
              injection heqo with hro
              subst hro
              injection hres with h1 h2
              subst h1; subst h2
              have hcollapse : dictSet rgs pubkey r = rgs :=
                dictSet_self_eq rgs pubkey r hnd heqget
              have hcr := call_realloc_exhausted DEFAULT_PARENT rgs pubkey r l4 l6 heqget
                (by simp at hnsub; exact hnsub) hguard heqf
              exact ⟨by simp [hcollapse, hcr], by simp [hcollapse, hcr]⟩
            · rename_i x2 old2 heqf heqo
              exact absurd heqo (by simp)
      · rename_i heqget
        unfold get_or_allocate_prefix.allocate at hres
        split at hres
        · injection hres with h1 h2
          subst h1; subst h2
          exact ⟨by rw [hres'], by rw [hres']⟩
        · rename_i hguard
          simp only [] at hres
          split at hres
          · rename_i x2 old2 cand heqf
            injection hres with h1 h2
            subst h1; subst h2
            have hg2 := hguard
            push_neg at hg2
            have hcw := call_of_written DEFAULT_PARENT (dictSet rgs pubkey cand) pubkey
              cand l4 l6 (dictGet?_dictSet_self rgs pubkey cand)
              (subnets_subnet_of DEFAULT_PARENT l6 DEFAULT_PARENT_normalized hg2.1 hg2.2
                cand (List.mem_of_mem_drop (List.mem_of_find?_eq_some heqf)))
            exact ⟨by rw [hcw], by rw [hcw]⟩
          · rename_i x2 old2 cand heqf heqo
            exact absurd heqo (by simp)
          · injection hres with h1 h2
            subst h1; subst h2
            exact ⟨by rw [hres'], by rw [hres']⟩

/-- C7 witness: starting from a missing file, the pubkey `"k"` is
allocated `2001:db8:ed0:2::/63` (the first `/63` of the default parent
after the skipped one), and the second call returns the same result and
leaves the persisted state of the first call unchanged. -/
theorem c7_get_or_allocate_idempotent_witness :
    ( get_or_allocate_prefix IPAMFile.missing "k" false true 0 63).1
      = .ok (some ⟨0x20010db80ed0 * 2 ^ 80 + 2 * 2 ^ 64, 63⟩, [])
    ∧ ( get_or_allocate_prefix ( get_or_allocate_prefix IPAMFile.missing "k" false true 0 63).2
        "k" false true 0 63).1
      = ( get_or_allocate_prefix IPAMFile.missing "k" false true 0 63).1
    ∧ ( get_or_allocate_prefix ( get_or_allocate_prefix IPAMFile.missing "k" false true 0 63).2
        "k" false true 0 63).2
      = ( get_or_allocate_prefix IPAMFile.missing "k" false true 0 63).2 :=
  ⟨by rfl,
   (c7_get_or_allocate_idempotent IPAMFile.missing "k" false true 0 63 trivial).1,
   (c7_get_or_allocate_idempotent IPAMFile.missing "k" false true 0 63 trivial).2⟩

/-! ### Hex and MD5 lemmas for the `lladdr` proof -/

theorem parseHex_foldl (cs : List Char) (a : Nat) :
    cs.foldl (fun acc c => 16 * acc + hexVal c) a = a * 16 ^ cs.length + parseHex cs := by
  induction cs generalizing a with
  | nil => simp [parseHex]
  | cons c cs ih =>
    have h1 : parseHex (c :: cs) = hexVal c * 16 ^ cs.length + parseHex cs := by
      show cs.foldl _ (16 * 0 + hexVal c) = _
      rw [ih]
      ring
    show cs.foldl _ (16 * a + hexVal c) = _
    rw [ih, h1, List.length_cons]
    ring

theorem parseHex_append (xs ys : List Char) :
    parseHex (xs ++ ys) = parseHex xs * 16 ^ ys.length + parseHex ys := by
  unfold parseHex
  rw [List.foldl_append]
  exact parseHex_foldl ys _

theorem wrap2_hexdigest (bytes : List Nat) :
    wrap2 (hexdigestChars bytes) = bytes.map byteToHexPair := by
  induction bytes with
  | nil => rfl
  | cons b bs ih =>
    show wrap2 (byteToHexPair b ++ hexdigestChars bs) = _
    show [hexDigitChar (b / 16), hexDigitChar (b % 16)] :: wrap2 (hexdigestChars bs) = _
    rw [ih]
    rfl

/-- The euil value of the mac built from the digest bytes `02 b0 b1 ff fe
b2 b3 b4` read big-endian. -/
def euilBytes (b0 b1 b2 b3 b4 : Nat) : Nat :=
  ((((((2 * 256 + b0) * 256 + b1) * 256 + 255) * 256 + 254) * 256 + b2) * 256 + b3) * 256 + b4

set_option maxRecDepth 2000 in
theorem char_facts : ∀ n, n < 16 →
    Char.toLower (hexDigitChar n) = hexDigitChar n
    ∧ ((hexDigitChar n == ':') = false)
    ∧ (decide (hexDigitChar n ∈ ['.', ':', '-']) = false)
    ∧ hexVal (hexDigitChar n) = n := by decide

/-- The full evaluation of `mac2eui64` on the MAC `02:<b0>:<b1>:<b2>:<b3>:<b4>`
with the `fe80::/10` prefix: the modified-EUI64 value `02 b0 b1 ff fe b2
b3 b4` is added to `fe80::` and rendered with prefix length 10. -/
theorem mac2eui64_hexpairs (b0 b1 b2 b3 b4 : Nat)
    (h0 : b0 < 256) (h1 : b1 < 256) (h2 : b2 < 256) (h3 : b3 < 256) (h4 : b4 < 256) :
    mac2eui64 (String.mk (List.intercalate [':']
        (['0', '2'] :: [byteToHexPair b0, byteToHexPair b1, byteToHexPair b2,
          byteToHexPair b3, byteToHexPair b4]))) (some fe80Net)
      = .ok (ipv6ToString (0xfe80 * 2 ^ 112 + euilBytes b0 b1 b2 b3 b4)
          ++ "/" ++ toString (10 : Nat)) := by
  have hf0 := char_facts (b0 / 16) (by omega)
  have hf1 := char_facts (b0 % 16) (by omega)
  have hf2 := char_facts (b1 / 16) (by omega)
  have hf3 := char_facts (b1 % 16) (by omega)
  have hf4 := char_facts (b2 / 16) (by omega)
  have hf5 := char_facts (b2 % 16) (by omega)
  have hf6 := char_facts (b3 / 16) (by omega)
  have hf7 := char_facts (b3 % 16) (by omega)
  have hf8 := char_facts (b4 / 16) (by omega)
  have hf9 := char_facts (b4 % 16) (by omega)
  simp only [byteToHexPair]
  set c0 := hexDigitChar (b0 / 16) with hcd0
  set c1 := hexDigitChar (b0 % 16) with hcd1
  set c2 := hexDigitChar (b1 / 16) with hcd2
  set c3 := hexDigitChar (b1 % 16) with hcd3
  set c4 := hexDigitChar (b2 / 16) with hcd4
  set c5 := hexDigitChar (b2 % 16) with hcd5
  set c6 := hexDigitChar (b3 / 16) with hcd6
  set c7 := hexDigitChar (b3 % 16) with hcd7
  set c8 := hexDigitChar (b4 / 16) with hcd8
  set c9 := hexDigitChar (b4 % 16) with hcd9
  have hdata : (String.mk (List.intercalate [':']
      (['0', '2'] :: [[c0, c1], [c2, c3], [c4, c5], [c6, c7], [c8, c9]]))).data
      = ['0', '2', ':', c0, c1, ':', c2, c3, ':', c4, c5, ':', c6, c7, ':', c8, c9] := rfl
  unfold mac2eui64
  rw [hdata]
  have t0 : (('0' : Char) == ':') = false := rfl
  have t2 : (('2' : Char) == ':') = false := rfl
  have tc : ((':' : Char) == ':') = true := rfl
  have s0 : decide (('0' : Char) ∈ ['.', ':', '-']) = false := rfl
  have s2 : decide (('2' : Char) ∈ ['.', ':', '-']) = false := rfl
  have sc : decide (((':') : Char) ∈ ['.', ':', '-']) = true := rfl
  have l0 : Char.toLower '0' = '0' := rfl
  have l2 : Char.toLower '2' = '2' := rfl
  have hz : zfill (natToHex (parseHex ['0', '2'] ||| 2)) 2 = ['0', '2'] := rfl
  simp only [t0, t2, tc, s0, s2, sc, l0, l2, hz, decide_not,
    hf0.1, hf0.2.1, hf0.2.2.1, hf1.1, hf1.2.1, hf1.2.2.1,
    hf2.1, hf2.2.1, hf2.2.2.1, hf3.1, hf3.2.1, hf3.2.2.1,
    hf4.1, hf4.2.1, hf4.2.2.1, hf5.1, hf5.2.1, hf5.2.2.1,
    hf6.1, hf6.2.1, hf6.2.2.1, hf7.1, hf7.2.1, hf7.2.2.1,
    hf8.1, hf8.2.1, hf8.2.2.1, hf9.1, hf9.2.1, hf9.2.2.1,
    List.filter_cons, List.filter_nil, List.map_cons, List.map_nil,
    Bool.not_false, Bool.not_true, Bool.false_eq_true, Bool.true_eq_false,
    if_true, if_false, ite_true, ite_false, List.length_cons, List.length_nil,
    List.take_succ_cons, List.take_zero, List.drop_succ_cons, List.drop_zero,
    List.cons_append, List.nil_append]
  rw [if_neg (show ¬ ((0 + 1 + 1 + 1 + 1 + 1 : Nat) ≠ 5) by omega)]
  have hP : parseHex ['0', '2', c0, c1, c2, c3, 'f', 'f', 'f', 'e', c4, c5, c6, c7, c8, c9]
      = euilBytes b0 b1 b2 b3 b4 := by
    have v0 : hexVal '0' = 0 := rfl
    have v2 : hexVal '2' = 2 := rfl
    have vf : hexVal 'f' = 15 := rfl
    have ve : hexVal 'e' = 14 := rfl
    simp only [parseHex, List.foldl_cons, List.foldl_nil, v0, v2, vf, ve,
      hf0.2.2.2, hf1.2.2.2, hf2.2.2.2, hf3.2.2.2, hf4.2.2.2,
      hf5.2.2.2, hf6.2.2.2, hf7.2.2.2, hf8.2.2.2, hf9.2.2.2]
    unfold euilBytes
    omega
  rw [hP]
  have hplen : fe80Net.plen = 10 := rfl
  have haddr : fe80Net.addr = 65152 * 2 ^ 112 := rfl
  rw [hplen, haddr]
  have hb : euilBytes b0 b1 b2 b3 b4 < 2 ^ (128 - 10) := by
    have h118 : (2 : Nat) ^ (128 - 10) = 332306998946228968225951765070086144 := by
      norm_num
    rw [h118]
    unfold euilBytes
    omega
  rw [if_pos hb]

theorem rewritePrefixLen128_slash10 (t : String) :
    rewritePrefixLen128 (t ++ "/" ++ toString (10 : Nat)) = t ++ "/128" := by
  have h10 : (t ++ "/" ++ toString (10 : Nat)) = t ++ "/10" := by
    rw [String.append_assoc]
    rfl
  rw [h10]
  unfold rewritePrefixLen128
  have hdata : (t ++ "/10").data = t.data ++ ['/', '1', '0'] := by
    have h3 : ("/10" : String).data = ['/', '1', '0'] := rfl
    rw [← h3]
    exact String.data_append t "/10"
  rw [hdata, List.reverse_append]
  have hrev : (['/', '1', '0'] : List Char).reverse = ['0', '1', '/'] := rfl
  rw [hrev]
  have hd0 : Char.isDigit '0' = true := rfl
  have hd1 : Char.isDigit '1' = true := rfl
  have hds : Char.isDigit '/' = false := rfl
  simp only [List.cons_append, List.nil_append, List.takeWhile, List.dropWhile,
    hd0, hd1, hds]
  have hnil : ([].append t.data.reverse : List Char) = t.data.reverse := rfl
  rw [hnil, List.reverse_reverse]
  rfl

/-- The shape of every `lladdr` value: `fe80::` plus a modified-EUI64
value below `2^64`, rendered as an IPv6 string with suffix `/128`. -/
theorem lladdr_bytes_fe80 (key_bytes : List Nat) :
    ∃ e, e < 2 ^ 64 ∧
      lladdr_bytes key_bytes = .ok (ipv6ToString (0xfe80 * 2 ^ 112 + e) ++ "/128") := by
  unfold lladdr_bytes
  simp only []
  rw [wrap2_hexdigest]
  obtain ⟨A, B, C, D, hdig⟩ : ∃ A B C D, md5Bytes (key_bytes ++ [10])
      = leBytes 4 A ++ leBytes 4 B ++ leBytes 4 C ++ leBytes 4 D :=
    ⟨((chunks64 (md5Pad (key_bytes ++ [10]))).foldl md5Chunk md5Init).a,
     ((chunks64 (md5Pad (key_bytes ++ [10]))).foldl md5Chunk md5Init).b,
     ((chunks64 (md5Pad (key_bytes ++ [10]))).foldl md5Chunk md5Init).c,
     ((chunks64 (md5Pad (key_bytes ++ [10]))).foldl md5Chunk md5Init).d, rfl⟩
  rw [hdig]
  have hle : ∀ x : Nat, leBytes 4 x
      = [x / 2 ^ (8 * 0) % 256, x / 2 ^ (8 * 1) % 256,
         x / 2 ^ (8 * 2) % 256, x / 2 ^ (8 * 3) % 256] := fun _ => rfl
  simp only [hle, List.cons_append, List.nil_append, List.map_cons,
    List.take_succ_cons, List.take_zero]
  refine ⟨euilBytes (A / 2 ^ (8 * 0) % 256) (A / 2 ^ (8 * 1) % 256)
      (A / 2 ^ (8 * 2) % 256) (A / 2 ^ (8 * 3) % 256) (B / 2 ^ (8 * 0) % 256), ?_, ?_⟩
  · have h64 : (2 : Nat) ^ 64 = 18446744073709551616 := by norm_num
    rw [h64]
    unfold euilBytes
    have hb0 : A / 2 ^ (8 * 0) % 256 < 256 := Nat.mod_lt _ (by norm_num)
    have hb1 : A / 2 ^ (8 * 1) % 256 < 256 := Nat.mod_lt _ (by norm_num)
    have hb2 : A / 2 ^ (8 * 2) % 256 < 256 := Nat.mod_lt _ (by norm_num)
    have hb3 : A / 2 ^ (8 * 3) % 256 < 256 := Nat.mod_lt _ (by norm_num)
    have hb4 : B / 2 ^ (8 * 0) % 256 < 256 := Nat.mod_lt _ (by norm_num)
    omega
  · rw [mac2eui64_hexpairs _ _ _ _ _ (Nat.mod_lt _ (by norm_num))
      (Nat.mod_lt _ (by norm_num)) (Nat.mod_lt _ (by norm_num))
      (Nat.mod_lt _ (by norm_num)) (Nat.mod_lt _ (by norm_num))]
    simp only [Except.map]
    rw [rewritePrefixLen128_slash10]

/-- The code's `lladdr` pipeline produces exactly the spec's formula. -/
theorem lladdr_bytes_eq_spec_formula (key_bytes : List Nat) :
    lladdr_bytes key_bytes = lladdr_spec_formula key_bytes := by
  unfold lladdr_bytes lladdr_spec_formula
  simp only []
  rw [wrap2_hexdigest, ← List.map_take]

/-- C8: for every ASCII public-key string, `lladdr` equals the spec's
formula `mac2eui64("02:" + first-5-bytes(md5(pubkey||"\n")), "fe80::/10")`
rewritten to `/128`; it is deterministic; and its address is always
inside `fe80::/10` (the top 10 bits of the produced 128-bit address are
`1111111010`, i.e. `0x3fa`). -/
theorem c8_lladdr (k : String) (key_bytes : List Nat)
    (henc : encodeAscii k = some key_bytes) :
    lladdr k = lladdr_spec_formula key_bytes
    ∧ (∀ k', k = k' → lladdr k = lladdr k')
    ∧ (∃ e, e < 2 ^ 64
        ∧ lladdr k = .ok (ipv6ToString (0xfe80 * 2 ^ 112 + e) ++ "/128")
        ∧ (0xfe80 * 2 ^ 112 + e) / 2 ^ 118 = 0x3fa) := by
  have hl : lladdr k = lladdr_bytes key_bytes := by
    unfold lladdr
    rw [henc]
  refine ⟨hl.trans (lladdr_bytes_eq_spec_formula key_bytes),
    fun k' hk => by rw [hk], ?_⟩
  obtain ⟨e, he, heq⟩ := lladdr_bytes_fe80 key_bytes
  refine ⟨e, he, hl.trans heq, ?_⟩
  have hsplit : (0xfe80 : Nat) * 2 ^ 112 = 2 ^ 118 * 0x3fa := by norm_num
  rw [hsplit, Nat.mul_add_div (by norm_num : 0 < (2 : Nat) ^ 118)]
  have he118 : e < 2 ^ 118 :=
    lt_of_lt_of_le he (Nat.pow_le_pow_right (by norm_num) (by norm_num))
  rw [Nat.div_eq_of_lt he118, Nat.add_zero]

set_option maxRecDepth 100000 in
/-- C8 witness: for the key `"public_key"` the code path and the spec
formula agree and produce `fe80::282:6eff:fe9d:ecd3/128` — the value the
repository's own netlink tests expect — which lies in `fe80::/10`. -/
theorem c8_lladdr_witness :
    encodeAscii "public_key" = some [112, 117, 98, 108, 105, 99, 95, 107, 101, 121]
    ∧ lladdr "public_key"
      = lladdr_spec_formula [112, 117, 98, 108, 105, 99, 95, 107, 101, 121]
    ∧ lladdr "public_key" = .ok "fe80::282:6eff:fe9d:ecd3/128" :=
  ⟨by decide,
   (c8_lladdr "public_key" [112, 117, 98, 108, 105, 99, 95, 107, 101, 121] (by decide)).1,
   by rfl⟩

end Wgkex
